import Mathlib

/-!
Verification development for the soapfish SOAP dispatcher
(src/soapfish/soap_dispatch.py).

The Python module is shallowly embedded below.  External collaborators that
the dispatcher calls but does not implement (the lxml parser, the generated
schema validator, the WS-Addressing validator, the envelope codec of the
protocol version, the WSDL/XSD text generators and the header/body type
parsers) are modelled as function-valued fields of the corresponding
structures, so every theorem quantifies over their behaviour.  Python
exceptions are modelled with an explicit `Except` monad; machine-level
details (bytes vs unicode) are modelled with `String`.
-/

namespace Soapfish

/-! ## Definitions -/

/-- Python exceptions that can cross the boundaries visible in
soap_dispatch.py.  `soapError` models `soapfish.core.SOAPError(code, message)`;
`other` stands for any further exception raised by user code. -/
inductive PyExn where
  | soapError (code : String) (message : String)
  | keyError
  | typeError (message : String)
  | attributeError (name : String)
  | other (tag : String)
deriving DecidableEq

/-- An XML element as far as the dispatcher inspects one: the namespace URI
obtained from `elem.nsmap[elem.prefix]` (`none` models a `KeyError` of that
lookup) and the full lxml tag string, which for a namespaced element has the
shape `\x7buri\x7dlocalname`. -/
structure XmlElem where
  nsUri : Option String
  tag : String
deriving DecidableEq

/-- Convenience constructor for a namespaced element: the lxml tag of an
element with namespace `ns` and local name `local_` is `\x7bns\x7dlocal_`. -/
def XmlElem.namespaced (ns local_ : String) : XmlElem :=
  ⟨some ns, "\x7b" ++ ns ++ "\x7d" ++ local_⟩

/-- The SOAP Header: the dispatcher only iterates over
`soap_header._xmlelement.getchildren()`. -/
structure SoapHeader where
  children : List XmlElem
deriving DecidableEq

/-- The SOAP Body: the dispatcher only uses `soap_body.content()`, the
single child element of the Body. -/
structure SoapBody where
  content : XmlElem
deriving DecidableEq

/-- A parsed envelope: `Header` may be `None`, `Body` may be `None`
(the latter is rejected by `_parse_soap_content`). -/
structure Envelope where
  header : Option SoapHeader
  body : Option SoapBody
deriving DecidableEq

/-- A parsed header instance (the result of `soap_header.parse_as(...)`),
kept abstract. -/
abbrev HeaderVal := String

/-- A Python value that can sit in `response.soap_body`: an instance of some
class (only the class name is ever inspected, via `__class__.__name__`),
a plain string, or a `SOAPError` instance. -/
inductive BodyVal where
  | obj (className : String)
  | strVal (s : String)
  | err (code : String) (message : String)
deriving DecidableEq

/-- `value.__class__.__name__` for the values modelled by `BodyVal`. -/
def BodyVal.className : BodyVal → String
  | .obj c => c
  | .strVal _ => "str"
  | .err _ _ => "SOAPError"

/-- Modelled from the spec: `soapfish.core.SOAPResponse` is not under src/.
Per sections 4.6 and 6 of the spec the structured response carries the body
value, an optional header, the transport status (default 200), the
serialized content and the transport headers.  The constructor call
`SOAPResponse(value)` leaves every other member at its default. -/
structure SOAPResponse where
  soap_body : BodyVal
  soap_header : Option HeaderVal
  http_status_code : Nat
  http_content : Option String
  http_headers : List (String × String)
deriving DecidableEq

/-- `SOAPResponse(value)` with all defaults (status 200, no header, no
content, empty header dict). -/
def SOAPResponse.ofBody (v : BodyVal) : SOAPResponse :=
  ⟨v, none, 200, none, []⟩

/-- Modelled from the spec: the structured response type
(`soapfish.core.SOAPResponse`, not under src/) has exactly the members
listed in `SOAPResponse`; it defines no `content` attribute, so the
attribute access `response.content` performed at soap_dispatch.py line 203
fails with an `AttributeError`. -/
def SOAPResponse.contentAttr (_ : SOAPResponse) : Except PyExn BodyVal :=
  throw (.attributeError "content")

/-- A value returned by a handler function or a middleware: either already
a structured `SOAPResponse` (the `isinstance(response, SOAPResponse)` test)
or any other value. -/
inductive RespVal where
  | structured (r : SOAPResponse)
  | raw (v : BodyVal)

/-- `if not isinstance(response, SOAPResponse): response = SOAPResponse(response)`. -/
def wrapResponse : RespVal → SOAPResponse
  | .structured r => r
  | .raw v => SOAPResponse.ofBody v

/-- The transport request: the WSGI environ dictionary and the raw posted
content. -/
structure SOAPRequest where
  environ : List (String × String)
  http_content : String

/-- `method.input`: either a string (an element name to be looked up in the
schema) or a type object.  Type objects are identified by name only. -/
inductive MethodInput where
  | name (s : String)
  | typ (t : String)
deriving DecidableEq

/-- `method.output`: either a string (the explicit response tag) or a type
object. -/
inductive MethodOutput where
  | name (s : String)
  | typ (t : String)
deriving DecidableEq

/-- A Method binding of the service table.  `function` is the handler: it
receives the request (modelled by its transport part, the parsed header and
the parsed body, which is also passed as the second Python argument) and
may return any value or raise. -/
structure Method where
  soapAction : String
  input : MethodInput
  output : MethodOutput
  input_header : Option String
  function : SOAPRequest → Option HeaderVal → BodyVal → Except PyExn RespVal

/-- The request after ROUTE / PARSE_HEADER / PARSE_BODY: the original
request with `request.method`, `request.soap_header` and
`request.soap_body` assigned. -/
structure RoutedCtx where
  base : SOAPRequest
  method : Method
  soap_header : Option HeaderVal
  soap_body : BodyVal

/-- A middleware: called as `mw(request, next_call=...)`. -/
abbrev Mw := RoutedCtx → (RoutedCtx → Except PyExn RespVal) → Except PyExn RespVal

/-- The protocol-version object (`self.service.version`), an external
collaborator: envelope parsing, action extraction, content type, the client
fault code and the two envelope builders. -/
structure SoapVersionModel where
  parsexml : String → Except String Envelope
  determine_soap_action : SOAPRequest → Option String
  CONTENT_TYPE : String
  codeClient : String
  get_error_response : String → String → Option HeaderVal → String
  envelope_response : String → BodyVal → Option HeaderVal → String

/-- The service: protocol version, ordered method table, the default input
header type and the schema lookup `schema.get_element_by_name(name)._type`
(an external collaborator; it raises on an unknown element). -/
structure ServiceModel where
  version : SoapVersionModel
  methods : List Method
  input_header : Option String
  get_element_by_name : String → Except PyExn String

/-- The dispatcher state as assembled by `SOAPDispatcher.__init__`:
the service, the middleware list, the generated schema validator, the
WS-Addressing validator, the header and body parser collaborators, the wsdl
bytes, the xsd map and the strict-header flag.  The validators return
`none` on success and `some message` for a validation failure
(`etree.DocumentInvalid`).  Note that `__init__` stores no composed
middleware handler. -/
structure SOAPDispatcher where
  service : ServiceModel
  middlewares : List Mw
  schema_validator : XmlElem → Option String
  wsaValidator : XmlElem → Option String
  parse_as : SoapHeader → String → Except PyExn HeaderVal
  parse_xmlelement : String → XmlElem → Except PyExn BodyVal
  wsdl : String
  xsds : List (String × String)
  strict_soap_header : Bool

/-- Modelled from the spec: `soapfish.utils.uncapitalize` is not under
src/; section 9 fixes the transform as "lowercase the first character,
leave the rest unchanged". -/
def uncapitalize (s : String) : String :=
  match s.toList with
  | [] => ""
  | c :: cs => ⟨Char.toLower c :: cs⟩

/-- A single quote character, used by the fault messages of
`_find_handler_for_request`. -/
def sq : String := ⟨[Char.ofNat 39]⟩

/-- The message `Invalid soap action <q><s><q>` with `<q>` a single quote,
from soap_dispatch.py line 97. -/
def msgInvalidAction (s : String) : String :=
  "Invalid soap action " ++ sq ++ s ++ sq

/-- The message `Missing soap action and invalid root tag <q><rt><q>`,
from soap_dispatch.py line 99. -/
def msgMissingAction (rt : String) : String :=
  "Missing soap action and invalid root tag " ++ sq ++ rt ++ sq

/-- `call_method(request)`: invoke the resolved handler and wrap a
non-structured result in a `SOAPResponse`. -/
def call_method (ctx : RoutedCtx) : Except PyExn RespVal := do
  let response ← ctx.method.function ctx.base ctx.soap_header ctx.soap_body
  match response with
  | .structured r => pure (.structured r)
  | .raw v => pure (.structured (SOAPResponse.ofBody v))

/-- The chain built by `SOAPDispatcher.middleware` from the remaining
middleware list: `call_method` once the list is exhausted, otherwise
`functools.partial(middlewares[i], next_call=self.middleware(i+1))`. -/
def chainFrom : List Mw → (RoutedCtx → Except PyExn RespVal)
  | [] => call_method
  | mw :: rest => fun ctx => mw ctx (chainFrom rest)

/-- `self.middleware(i)`: the source tests `i == len(self.middlewares)` and
otherwise composes `middlewares[i]` with `self.middleware(i+1)`; this is
the chain over the list suffix `middlewares[i:]`.  (For `i > len` the
source would raise `IndexError`; that region is never reached, the method
is always entered at `i = 0`.) -/
def middleware (d : SOAPDispatcher) (i : Nat) : RoutedCtx → Except PyExn RespVal :=
  chainFrom (d.middlewares.drop i)

/-- Instrumentation of `SOAPDispatcher.middleware`: the number of
`functools.partial` objects constructed when `self.middleware()` is
evaluated, one per middleware in the list. -/
def rebuildCost : List Mw → Nat
  | [] => 0
  | _ :: rest => 1 + rebuildCost rest

/-- The chain-composition cost incurred by the call
`self.middleware()(request)` that `handle_soap_request` performs at
soap_dispatch.py line 185 for every request that passes routing. -/
def rebuildCostPerRequest (d : SOAPDispatcher) : Nat :=
  rebuildCost d.middlewares

/-- `_parse_soap_content`: parse the posted XML (an `etree.XMLSyntaxError`
becomes a client `SOAPError` carrying the repr of the parse error) and
reject an envelope with no Body. -/
def parse_soap_content (d : SOAPDispatcher) (xml : String) : Except PyExn Envelope :=
  match d.service.version.parsexml xml with
  | .error e => throw (.soapError d.service.version.codeClient e)
  | .ok envelope =>
      if envelope.body = none then
        throw (.soapError d.service.version.codeClient "Missing SOAP body")
      else
        pure envelope

/-- `_find_root_tag`: `ns = root.nsmap[root.prefix]` (a missing entry is a
`KeyError`), then strip the `\x7bns\x7d` prefix of the lxml tag by its
length. -/
def find_root_tag (e : XmlElem) : Except PyExn String :=
  match e.nsUri with
  | none => throw .keyError
  | some ns => pure (e.tag.drop (String.length ("\x7b" ++ ns ++ "\x7d")))

/-- Python truthiness of the extracted soap action (`if not soap_action`):
`None` and the empty string are falsy. -/
def actionTruthy : Option String → Bool
  | none => false
  | some s => s ≠ ""

/-- `root_tag == method.input` where `root_tag` is a string or `None` and
`method.input` is a string or a type object: in Python a type object never
equals a string and `None` never equals a string. -/
def inputEqualsTag (rt : Option String) : MethodInput → Bool
  | .name s => rt == some s
  | .typ _ => false

/-- The `for method in self.service.methods` loop of
`_find_handler_for_request`: in the truthy-action mode compare
`soap_action == method.soapAction`, otherwise compare
`root_tag == method.input`; first match wins. -/
def methodLoop (useAction : Bool) (sa : Option String) (rt : Option String) :
    List Method → Option Method
  | [] => none
  | m :: ms =>
      if useAction then
        if sa == some m.soapAction then some m
        else methodLoop useAction sa rt ms
      else
        if inputEqualsTag rt m.input then some m
        else methodLoop useAction sa rt ms

/-- The Python format `"%s" % x` for `x` a string or `None`. -/
def pyPercentS (o : Option String) : String := o.getD "None"

/-- `_find_handler_for_request`: extract the soap action; when it is falsy
compute the root tag of the Body child; run the method loop; on no match
raise a client fault whose message depends on whether the action was
`None`. -/
def find_handler_for_request (d : SOAPDispatcher) (req : SOAPRequest)
    (body_document : XmlElem) : Except PyExn Method := do
  let sa := d.service.version.determine_soap_action req
  let rt : Option String ←
    if actionTruthy sa then
      pure none
    else do
      pure (some (← find_root_tag body_document))
  match methodLoop (actionTruthy sa) sa rt d.service.methods with
  | some m => pure m
  | none =>
      throw (.soapError d.service.version.codeClient
        (match sa with
         | some s => msgInvalidAction s
         | none => msgMissingAction (pyPercentS rt)))

/-- `_parse_header`: a `None` header parses to `None`; the method-level
header type takes priority over the service-level one; with neither the
function falls through and returns `None`. -/
def parse_header (d : SOAPDispatcher) (handler : Method)
    (soap_header : Option SoapHeader) : Except PyExn (Option HeaderVal) :=
  match soap_header with
  | none => pure none
  | some hdr =>
      match handler.input_header with
      | some t => do pure (some (← d.parse_as hdr t))
      | none =>
          match d.service.input_header with
          | some t => do pure (some (← d.parse_as hdr t))
          | none => pure none

/-- `_parse_input`: a string-valued `method.input` is resolved through
`schema.get_element_by_name`, otherwise the type itself is the parser. -/
def parse_input (d : SOAPDispatcher) (method : Method) (message : XmlElem) :
    Except PyExn BodyVal :=
  match method.input with
  | .name s => do
      let t ← d.service.get_element_by_name s
      d.parse_xmlelement t message
  | .typ t => d.parse_xmlelement t message

/-- Modelled from the spec: the WS-Addressing namespace constant of the
external `soapfish.wsa` collaborator (`wsa.NAMESPACE`, not under src/). -/
def wsaNAMESPACE : String := "http://www.w3.org/2005/08/addressing"

/-- The per-child loop of `_validate_header`: a child in the addressing
namespace goes through `wsa.XML_SCHEMA.assertValid` (a failure always
raises); any other child goes through the generic schema validator whose
failure is re-raised only when `strict_soap_header` is set. -/
def validateChildren (d : SOAPDispatcher) : List XmlElem → Except String Unit
  | [] => pure ()
  | c :: rest =>
      if c.nsUri = some wsaNAMESPACE then
        match d.wsaValidator c with
        | some msg => .error msg
        | none => validateChildren d rest
      else
        match d.schema_validator c with
        | some msg =>
            if d.strict_soap_header then .error msg
            else validateChildren d rest
        | none => validateChildren d rest

/-- `_validate_header`. -/
def validate_header (d : SOAPDispatcher) : Option SoapHeader → Except String Unit
  | none => pure ()
  | some hdr => validateChildren d hdr.children

/-- `_validate_body`: the generic schema validator applied to the Body
content. -/
def validate_body (d : SOAPDispatcher) (b : SoapBody) : Except String Unit :=
  match d.schema_validator b.content with
  | some msg => .error msg
  | none => pure ()

/-- `_validate_input`: header first, then body.  (The Body is never `None`
here: `handle_soap_request` validates only after `_parse_soap_content`
rejected a missing Body; on `None` the source would raise inside
`soap_body.content()`.) -/
def validate_input (d : SOAPDispatcher) (envelope : Envelope) : Except String Unit := do
  validate_header d envelope.header
  match envelope.body with
  | some b => validate_body d b
  | none => pure ()

/-- Lines 170-181 of `handle_soap_request` (the body of its `try` block):
parse, extract Body content and Header, validate (converting the validator
exceptions to a client `SOAPError` carrying their repr), route, parse
header, parse body. -/
def routeStages (d : SOAPDispatcher) (req : SOAPRequest) : Except PyExn RoutedCtx := do
  let envelope ← parse_soap_content d req.http_content
  let soap_body_content ←
    match envelope.body with
    | some b => pure b.content
    | none => throw (.attributeError "content")
  let soap_header := envelope.header
  match validate_input d envelope with
  | .error e => throw (.soapError d.service.version.codeClient e)
  | .ok _ => pure ()
  let method ← find_handler_for_request d req soap_body_content
  let hdr ← parse_header d method soap_header
  let body ← parse_input d method soap_body_content
  pure ⟨req, method, hdr, body⟩

/-- Python dict assignment `headers[k] = v`: the key now maps to `v`,
whatever was there before. -/
def dictSet (hs : List (String × String)) (k v : String) : List (String × String) :=
  (k, v) :: hs.filter (fun p => !(p.1 == k))

/-- Lines 187-205 of `handle_soap_request` (everything after the
`try`/`except`/`else`): wrap the outcome in a `SOAPResponse` if needed,
overwrite the `Content-Type` header with the protocol content type, then
either build a status-500 fault envelope (when the body is a `SOAPError`)
or a success envelope whose tag is the explicit string output of the
resolved method if there is one and otherwise derives from the `content`
attribute of the response.  The second component of `pair` is the routed
request (`None` exactly on the `except SOAPError` path, where
`request.method` was never assigned and line 200 would raise).  Line 197 of
the source computes a tag from `response.soap_body` first, but both
branches of the following conditional overwrite it, so that assignment is
dead. -/
def finishResponse (d : SOAPDispatcher) (pair : RespVal × Option RoutedCtx) :
    Except PyExn SOAPResponse :=
  let SOAPv := d.service.version
  let response := wrapResponse pair.1
  let response := { response with
    http_headers := dictSet response.http_headers "Content-Type" SOAPv.CONTENT_TYPE }
  match response.soap_body with
  | .err c m =>
      pure { response with
        http_content := some (SOAPv.get_error_response c m response.soap_header),
        http_status_code := 500 }
  | _ =>
      match pair.2 with
      | none => throw (.attributeError "method")
      | some ctx =>
          match ctx.method.output with
          | .name s =>
              pure { response with
                http_content :=
                  some (SOAPv.envelope_response s response.soap_body response.soap_header) }
          | .typ _ =>
              match response.contentAttr with
              | .error e => throw e
              | .ok cont =>
                  pure { response with
                    http_content :=
                      some (SOAPv.envelope_response (uncapitalize cont.className)
                        response.soap_body response.soap_header) }

/-- `handle_soap_request`: the full POST pipeline.  The `try` block covers
only the stages in `routeStages`; only `SOAPError` is caught (becoming the
response value itself); any other staged exception propagates; the
middleware chain is rebuilt (`self.middleware()`) and run in the `else`
branch, outside the protection of the `except` clause, so its exceptions
propagate as well.  The common response assembly is `finishResponse`. -/
def handle_soap_request (d : SOAPDispatcher) (req : SOAPRequest) :
    Except PyExn SOAPResponse :=
  match routeStages d req with
  | .error (.soapError c m) => finishResponse d (.raw (.err c m), none)
  | .error e => .error e
  | .ok ctx =>
      match middleware d 0 ctx with
      | .error e => .error e
      | .ok rv => finishResponse d (rv, some ctx)

/-- `environ.get(k, default)`. -/
def pyGetD (env : List (String × String)) (k dflt : String) : String :=
  (env.lookup k).getD dflt

/-- Contiguous sub-list test. -/
def listInfixOf (n : List Char) : List Char → Bool
  | [] => n.isEmpty
  | c :: t => n.isPrefixOf (c :: t) || listInfixOf n t

/-- Python substring test `needle in hay`. -/
def strIn (needle hay : String) : Bool :=
  listInfixOf needle.toList hay.toList

/-- Python string truthiness of an `environ.get(k)` result: `None` and the
empty string are falsy. -/
def optTruthy : Option String → Bool
  | none => false
  | some s => s ≠ ""

/-- `wsdl.format(scheme=scheme, host=host)`: the generated document
contains the placeholders `\x7bscheme\x7d` and `\x7bhost\x7d`; `str.format`
replaces every occurrence. -/
def formatWsdl (w scheme host : String) : String :=
  (w.replace "\x7bscheme\x7d" scheme).replace "\x7bhost\x7d" host

/-- `handle_wsdl_request`: template the stored wsdl with the forwarded
scheme and the Host header when both are truthy (the bytes/str
decode-encode round trip of the source is the identity in this model). -/
def handle_wsdl_request (d : SOAPDispatcher) (req : SOAPRequest) : SOAPResponse :=
  let scheme := ((req.environ.lookup "X-Forwarded-Proto").orElse
    (fun _ => req.environ.lookup "wsgi.url_scheme")).getD "http"
  let host := req.environ.lookup "HTTP_HOST"
  let wsdl :=
    if scheme ≠ "" ∧ optTruthy host then formatWsdl d.wsdl scheme (host.getD "")
    else d.wsdl
  ⟨.strVal "wsdl", none, 200, some wsdl, [("Content-Type", "text/xml")]⟩

/-- Append a value to the list stored under a key, as
`urllib.parse.parse_qs` accumulates repeated keys. -/
def qsAppend (acc : List (String × List String)) (k v : String) :
    List (String × List String) :=
  match acc with
  | [] => [(k, [v])]
  | (k', vs) :: rest =>
      if k' = k then (k', vs ++ [v]) :: rest
      else (k', vs) :: qsAppend rest k v

/-- Split a character list on a separator character (`str.split(sep)`). -/
def splitOnSep (sep : Char) : List Char → List (List Char)
  | [] => [[]]
  | c :: t =>
      if c = sep then [] :: splitOnSep sep t
      else
        match splitOnSep sep t with
        | [] => [[c]]
        | item :: rest => (c :: item) :: rest

/-- Split a character list at the first occurrence of a separator
(`str.split(sep, 1)`); `none` when the separator does not occur. -/
def splitFirstOn (sep : Char) : List Char → Option (List Char × List Char)
  | [] => none
  | c :: t =>
      if c = sep then some ([], t)
      else
        match splitFirstOn sep t with
        | none => none
        | some (k, v) => some (c :: k, v)

/-- `urllib.parse.parse_qs`: split the query string on the ampersand,
split each item at the first `=`; items without `=` and items with an empty
value are dropped (`strict_parsing` and `keep_blank_values` are off).
Every key maps to the LIST of its values.  (Percent decoding and `+`
decoding are not modelled; no claim depends on them.) -/
def parse_qs (qs : String) : List (String × List String) :=
  (splitOnSep '&' qs.toList).foldl
    (fun acc item =>
      match splitFirstOn '=' item with
      | none => acc
      | some (k, v) =>
          if v.isEmpty then acc else qsAppend acc ⟨k⟩ ⟨v⟩)
    []

/-- Python dict subscription `self.xsds[key]` where `self.xsds` has string
keys and `key` is the result of `qs.get('xsd')` on a `parse_qs` dict: that
result is `None` or a list of strings.  A list is unhashable, so the
subscription raises `TypeError`; `None` is hashable but is not a key of a
string-keyed dict, so the subscription raises `KeyError`. -/
def xsdsSubscript (_xsds : List (String × String)) (key : Option (List String)) :
    Except PyExn String :=
  match key with
  | none => throw .keyError
  | some _ => throw (.typeError "unhashable type: list")

/-- `handle_xsd_request`: parse the query string and look the `xsd` entry
up in the generated map.  (`environ.get('QUERY_STRING')` has no default
here; a missing key would make `parse_qs(None)` raise, but `dispatch` only
calls this handler when the query string exists and contains `xsd=`.) -/
def handle_xsd_request (d : SOAPDispatcher) (req : SOAPRequest) :
    Except PyExn SOAPResponse := do
  let qsRaw ←
    match req.environ.lookup "QUERY_STRING" with
    | some s => pure s
    | none => throw (.typeError "expected string or bytes")
  let qs := parse_qs qsRaw
  let xsd ← xsdsSubscript d.xsds (qs.lookup "xsd")
  pure ⟨.strVal "xsd", none, 200, some xsd, [("Content-Type", "text/xml")]⟩

/-- The fixed rejection response of `dispatch`. -/
def badRequestResponse : SOAPResponse :=
  ⟨.strVal "bad request", none, 400, some "bad_request", [("Content-Type", "text/plain")]⟩

/-- `dispatch`: route on the request method and the query string. -/
def dispatch (d : SOAPDispatcher) (req : SOAPRequest) : Except PyExn SOAPResponse :=
  let request_method := pyGetD req.environ "REQUEST_METHOD" ""
  let qs := pyGetD req.environ "QUERY_STRING" ""
  if request_method = "GET" ∧ strIn "wsdl" qs then
    pure (handle_wsdl_request d req)
  else if request_method = "GET" ∧ strIn "xsd=" qs then
    handle_xsd_request d req
  else if request_method = "POST" then
    handle_soap_request d req
  else
    pure badRequestResponse

/-- A schema node: its import references and its include references, each a
location string.  (In the model a location identifies its schema.) -/
structure SchemaNode where
  imports : List String
  includes : List String
deriving DecidableEq

/-- `itertools.chain(schema.imports, schema.includes)`. -/
def nodeChildren (n : SchemaNode) : List String :=
  n.imports ++ n.includes

/-- A finite schema graph: location to schema node. -/
abbrev SchemaGraph := List (String × SchemaNode)

/-- The sub-schema locations referenced by the schema at a location; a
location with no node has none. -/
def childrenAt (g : SchemaGraph) (loc : String) : List String :=
  match g.lookup loc with
  | some n => nodeChildren n
  | none => []

/-- `_generate_xsds`, with a fuel argument standing for the unbounded
recursion of the source (the termination theorem shows that some fuel
always suffices).  The worklist is the chained import/include list
currently iterated; `generated` is the `_generated` dict.  A location
already in the dict is skipped; otherwise its bytes (`gen loc` models
`tostring(rewrite(generate_xsd(schema)))`) are recorded BEFORE recursing
into the children of that schema.  The returned trace lists the locations
for which `generate_xsd` ran, in order. -/
def generate_xsds (g : SchemaGraph) (gen : String → String) :
    Nat → List String → List (String × String) →
    Option (List (String × String) × List String)
  | 0, _, _ => none
  | _ + 1, [], generated => some (generated, [])
  | fuel + 1, loc :: rest, generated =>
      if (generated.lookup loc).isSome then
        generate_xsds g gen fuel rest generated
      else
        let generated' := (loc, gen loc) :: generated
        match generate_xsds g gen fuel (childrenAt g loc) generated' with
        | none => none
        | some (g1, t1) =>
            match generate_xsds g gen fuel rest g1 with
            | none => none
            | some (g2, t2) => some (g2, loc :: (t1 ++ t2))

/-- Reachability in the schema graph from a list of root references: the
roots themselves, plus anything referenced from a reachable location. -/
inductive ReachFrom (g : SchemaGraph) (roots : List String) : String → Prop
  | root {l : String} : l ∈ roots → ReachFrom g roots l
  | step {l l' : String} : ReachFrom g roots l → l' ∈ childrenAt g l →
      ReachFrom g roots l'

/-- All locations occurring in a schema graph: every keyed location and
every referenced child location. -/
def allLocs (g : SchemaGraph) : List String :=
  g.foldr (fun p acc => p.1 :: (nodeChildren p.2 ++ acc)) []

/-- The number of graph locations not yet recorded in the generated dict. -/
def pendingCount (g : SchemaGraph) (generated : List (String × String)) : Nat :=
  ((allLocs g).dedup.filter (fun k => (generated.lookup k).isNone)).length

/-- The acceptance rule for one Header child as the spec states it: a child
in the addressing namespace must pass the addressing validator; any other
child must pass the generic schema validator unless strict header mode is
off, in which case its failure is ignored. -/
def headerChildAccepted (d : SOAPDispatcher) (c : XmlElem) : Bool :=
  if c.nsUri = some wsaNAMESPACE then (d.wsaValidator c).isNone
  else (d.schema_validator c).isNone || !d.strict_soap_header

/-- The routing rule as the spec states it: a non-empty extracted action
selects the first method whose declared `soapAction` equals it; otherwise
(no action, or an extracted empty action) the first method whose declared
input equals the unqualified root tag is selected; on no match the fault
message is the invalid-action one exactly when an action was extracted
(`None` excluded) and the missing-action one otherwise. -/
def routeClaim (codeClient : String) (sa : Option String) (rtE : Except PyExn String)
    (methods : List Method) : Except PyExn Method :=
  match sa with
  | some s =>
      if s = "" then
        match rtE with
        | .error e => .error e
        | .ok rt =>
            match methods.find? (fun m => inputEqualsTag (some rt) m.input) with
            | some m => .ok m
            | none => .error (.soapError codeClient (msgInvalidAction ""))
      else
        match methods.find? (fun m => m.soapAction == s) with
        | some m => .ok m
        | none => .error (.soapError codeClient (msgInvalidAction s))
  | none =>
      match rtE with
      | .error e => .error e
      | .ok rt =>
          match methods.find? (fun m => inputEqualsTag (some rt) m.input) with
          | some m => .ok m
          | none => .error (.soapError codeClient (msgMissingAction rt))

/-- The response assembled at the pipeline boundary for a `SOAPError`
raised during parsing, validation or routing: the error becomes the body of
a fresh response, the content type is set, the fault envelope is built with
the (absent) response header, and the transport status becomes 500. -/
def faultResponse (d : SOAPDispatcher) (code message : String) : SOAPResponse :=
  ⟨.err code message, none, 500,
   some (d.service.version.get_error_response code message none),
   dictSet [] "Content-Type" d.service.version.CONTENT_TYPE⟩

/-- Replace the middleware list of a dispatcher, leaving every other field
in place. -/
def withMiddlewares (d : SOAPDispatcher) (mws : List Mw) : SOAPDispatcher :=
  ⟨d.service, mws, d.schema_validator, d.wsaValidator, d.parse_as,
   d.parse_xmlelement, d.wsdl, d.xsds, d.strict_soap_header⟩

/-- A protocol version whose parser always reports a syntax error. -/
def verErr : SoapVersionModel :=
  ⟨fun _ => .error "XMLSyntaxError", fun _ => none, "text/xml; charset=utf-8", "Client",
   fun c m _ => "fault(" ++ c ++ "," ++ m ++ ")", fun t _ _ => "resp(" ++ t ++ ")"⟩

/-- A service with no methods over `verErr`. -/
def svcErr : ServiceModel := ⟨verErr, [], none, fun _ => .error .keyError⟩

/-- A concrete dispatcher whose every POST fails to parse. -/
def dErr : SOAPDispatcher :=
  ⟨svcErr, [], fun _ => none, fun _ => none, fun _ _ => .ok "hv",
   fun _ _ => .ok (.obj "X"), "wsdl-bytes", [], true⟩

/-- A POST request with a body that is not well-formed XML. -/
def reqErr : SOAPRequest := ⟨[("REQUEST_METHOD", "POST")], "not xml"⟩

/-- A protocol version that parses every request into a headerless envelope
whose Body child is a namespaced `flight` element, and extracts the action
`act`. -/
def verOk : SoapVersionModel :=
  ⟨fun _ => .ok ⟨none, some ⟨XmlElem.namespaced "urn:x" "flight"⟩⟩,
   fun _ => some "act", "text/xml; charset=utf-8", "Client",
   fun c m _ => "fault(" ++ c ++ "," ++ m ++ ")", fun t _ _ => "resp(" ++ t ++ ")"⟩

/-- A method whose handler raises. -/
def mBoom : Method :=
  ⟨"act", .typ "Flight", .typ "FlightResponse", none,
   fun _ _ _ => .error (.other "boom")⟩

/-- A dispatcher that routes every POST to the raising handler `mBoom`. -/
def dBoom : SOAPDispatcher :=
  ⟨⟨verOk, [mBoom], none, fun _ => .ok "T"⟩, [], fun _ => none, fun _ => none,
   fun _ _ => .ok "hv", fun _ _ => .ok (.obj "Flight"), "wsdl-bytes", [], true⟩

/-- A well-formed POST request for the `verOk` scenarios. -/
def reqBoom : SOAPRequest := ⟨[("REQUEST_METHOD", "POST")], "xml"⟩

/-- The routed request that `routeStages dBoom reqBoom` produces. -/
def ctxBoom : RoutedCtx := ⟨reqBoom, mBoom, none, .obj "Flight"⟩

/-- A method whose output is a type object, with a handler returning a
plain body object. -/
def mFlight : Method :=
  ⟨"act", .typ "Flight", .typ "FlightResponse", none,
   fun _ _ _ => .ok (.raw (.obj "FlightResponse"))⟩

/-- The same method with an explicit string output. -/
def mNamed : Method :=
  ⟨"act", .typ "Flight", .name "flightResponse", none,
   fun _ _ _ => .ok (.raw (.obj "FlightResponse"))⟩

/-- A dispatcher routing to `mFlight` (type-valued output). -/
def dTag : SOAPDispatcher :=
  ⟨⟨verOk, [mFlight], none, fun _ => .ok "T"⟩, [], fun _ => none, fun _ => none,
   fun _ _ => .ok "hv", fun _ _ => .ok (.obj "Flight"), "wsdl-bytes", [], true⟩

/-- A dispatcher routing to `mNamed` (explicit string output). -/
def dNamed : SOAPDispatcher :=
  ⟨⟨verOk, [mNamed], none, fun _ => .ok "T"⟩, [], fun _ => none, fun _ => none,
   fun _ _ => .ok "hv", fun _ _ => .ok (.obj "Flight"), "wsdl-bytes", [], true⟩

/-- A well-formed POST request for the tag scenarios. -/
def reqTag : SOAPRequest := ⟨[("REQUEST_METHOD", "POST")], "xml"⟩

/-- The response produced by `handle_soap_request dNamed reqTag`. -/
def respNamed : SOAPResponse :=
  ⟨.obj "FlightResponse", none, 200, some "resp(flightResponse)",
   [("Content-Type", "text/xml; charset=utf-8")]⟩

/-- A PUT request (neither wsdl GET, xsd GET, nor POST). -/
def reqPut : SOAPRequest := ⟨[("REQUEST_METHOD", "PUT"), ("QUERY_STRING", "wsdl")], ""⟩

/-- A GET request whose query contains both `wsdl` and `xsd=`. -/
def reqBothQ : SOAPRequest :=
  ⟨[("REQUEST_METHOD", "GET"), ("QUERY_STRING", "wsdl&xsd=a")], ""⟩

/-- A dispatcher whose xsd map holds an entry for location `a`. -/
def dXsd : SOAPDispatcher :=
  ⟨svcErr, [], fun _ => none, fun _ => none, fun _ _ => .ok "hv",
   fun _ _ => .ok (.obj "X"), "wsdl-bytes", [("a", "xsd-bytes-a")], true⟩

/-- A GET request for the sub-schema at location `a`. -/
def reqXsd : SOAPRequest := ⟨[("REQUEST_METHOD", "GET"), ("QUERY_STRING", "xsd=a")], ""⟩

/-- A middleware that just continues the chain. -/
def mwNoop : Mw := fun ctx next => next ctx

/-- A dispatcher with two middlewares. -/
def dTwoMw : SOAPDispatcher :=
  ⟨svcErr, [mwNoop, mwNoop], fun _ => none, fun _ => none, fun _ _ => .ok "hv",
   fun _ _ => .ok (.obj "X"), "wsdl-bytes", [], true⟩

/-- A routed request used to exercise the middleware chain. -/
def ctxNoop : RoutedCtx := ⟨reqTag, mNamed, none, .obj "Flight"⟩

/-! ## Theorems -/

/-- Overwriting a header key makes it map to the new value. -/
theorem dictSet_lookup (hs : List (String × String)) (k v : String) :
    (dictSet hs k v).lookup k = some v := by
  simp [dictSet, List.lookup]

@[simp] theorem exceptPure {ε α : Type} (a : α) : (pure a : Except ε α) = .ok a := rfl

@[simp] theorem exceptThrow {ε α : Type} (e : ε) : (throw e : Except ε α) = .error e := rfl

/-- Lifting string equality tests through `Option.some` commutes. -/
theorem optBeqComm (s t : String) : ((some s == some t) : Bool) = (t == s) := by
  by_cases h : t = s
  · subst h; simp
  · have h1 : ((t == s) : Bool) = false := beq_eq_false_iff_ne.mpr h
    have h2 : ((some s == some t) : Bool) = false :=
      beq_eq_false_iff_ne.mpr (by simpa using Ne.symm h)
    rw [h1, h2]

theorem pyPercentS_some (s : String) : pyPercentS (some s) = s := rfl

/-- Claim C4: header validation succeeds exactly when every child is
accepted per `headerChildAccepted` — an addressing-namespace child raises
on addressing-validator failure regardless of the mode, any other child
raises on schema-validator failure if and only if `strict_soap_header` is
set, and in permissive mode such a failure is ignored and validation
continues with the remaining children.  An absent Header always
validates. -/
theorem header_validation_per_child (d : SOAPDispatcher) (cs : List XmlElem) :
    (validate_header d (some ⟨cs⟩) = .ok () ↔ ∀ c ∈ cs, headerChildAccepted d c = true)
    ∧ validate_header d none = .ok () := by
  refine ⟨?_, rfl⟩
  show validateChildren d cs = .ok () ↔ _
  induction cs with
  | nil => simp [validateChildren]
  | cons c rest ih =>
      simp only [validateChildren, List.mem_cons, forall_eq_or_imp]
      by_cases hn : c.nsUri = some wsaNAMESPACE
      · cases hw : d.wsaValidator c with
        | some msg => simp [hn, hw, headerChildAccepted, ih]
        | none => simp [hn, hw, headerChildAccepted, ih]
      · cases hv : d.schema_validator c with
        | some msg =>
            cases hstrict : d.strict_soap_header with
            | true => simp [hn, hv, hstrict, headerChildAccepted, ih]
            | false => simp [hn, hv, hstrict, headerChildAccepted, ih]
        | none => simp [hn, hv, headerChildAccepted, ih]

/-- The action-mode method loop is a first-match search on `soapAction`. -/
theorem methodLoop_true_eq_find (s : String) (rt : Option String) (ms : List Method) :
    methodLoop true (some s) rt ms = ms.find? (fun m => m.soapAction == s) := by
  induction ms with
  | nil => rfl
  | cons m ms ih =>
      simp only [methodLoop, List.find?, optBeqComm]
      cases h : (m.soapAction == s) <;> simp [h, ih]

/-- The root-tag-mode method loop is a first-match search on the declared
input. -/
theorem methodLoop_false_eq_find (sa rt : Option String) (ms : List Method) :
    methodLoop false sa rt ms = ms.find? (fun m => inputEqualsTag rt m.input) := by
  induction ms with
  | nil => rfl
  | cons m ms ih =>
      simp only [methodLoop, List.find?]
      cases h : inputEqualsTag rt m.input <;> simp [h, ih]

/-- Claim C2: `_find_handler_for_request` implements exactly the routing
rule of the spec (`routeClaim`), and the root tag of a namespaced Body
child element is its unqualified local name. -/
theorem routing_matches_spec (d : SOAPDispatcher) (req : SOAPRequest)
    (body_document : XmlElem) :
    find_handler_for_request d req body_document =
      routeClaim d.service.version.codeClient
        (d.service.version.determine_soap_action req)
        (find_root_tag body_document) d.service.methods
    ∧ ∀ ns local_, find_root_tag (XmlElem.namespaced ns local_) = .ok local_ := by
  constructor
  · cases hsa : d.service.version.determine_soap_action req with
    | none =>
        cases hrt : find_root_tag body_document with
        | error e =>
            simp [find_handler_for_request, routeClaim, hsa, hrt, actionTruthy,
              Except.bind, bind]
        | ok rt =>
            simp [find_handler_for_request, routeClaim, hsa, hrt, actionTruthy,
              Except.bind, bind, methodLoop_false_eq_find, pyPercentS]
    | some s =>
        by_cases hs : s = ""
        · subst hs
          cases hrt : find_root_tag body_document with
          | error e =>
              simp [find_handler_for_request, routeClaim, hsa, hrt, actionTruthy,
                Except.bind, bind]
          | ok rt =>
              simp [find_handler_for_request, routeClaim, hsa, hrt, actionTruthy,
                Except.bind, bind, methodLoop_false_eq_find]
        · simp [find_handler_for_request, routeClaim, hsa, hs, actionTruthy,
            Except.bind, bind, methodLoop_true_eq_find]
  · intro ns local_
    show Except.ok (("\x7b" ++ ns ++ "\x7d" ++ local_).drop
      (String.length ("\x7b" ++ ns ++ "\x7d"))) = Except.ok local_
    congr 1
    apply String.ext
    rw [String.data_drop]
    have hlen : String.length ("\x7b" ++ ns ++ "\x7d") =
        (("\x7b" ++ ns ++ "\x7d").data).length := rfl
    rw [hlen]
    have hsplit : ("\x7b" ++ ns ++ "\x7d" ++ local_).data =
        ("\x7b" ++ ns ++ "\x7d").data ++ local_.data := by
      simp only [String.data_append, List.append_assoc]
    rw [hsplit]
    exact List.drop_left _ _

@[simp] theorem withMiddlewares_service (d : SOAPDispatcher) (mws : List Mw) :
    (withMiddlewares d mws).service = d.service := rfl

@[simp] theorem withMiddlewares_schema_validator (d : SOAPDispatcher) (mws : List Mw) :
    (withMiddlewares d mws).schema_validator = d.schema_validator := rfl

@[simp] theorem withMiddlewares_wsaValidator (d : SOAPDispatcher) (mws : List Mw) :
    (withMiddlewares d mws).wsaValidator = d.wsaValidator := rfl

@[simp] theorem withMiddlewares_parse_as (d : SOAPDispatcher) (mws : List Mw) :
    (withMiddlewares d mws).parse_as = d.parse_as := rfl

@[simp] theorem withMiddlewares_parse_xmlelement (d : SOAPDispatcher) (mws : List Mw) :
    (withMiddlewares d mws).parse_xmlelement = d.parse_xmlelement := rfl

@[simp] theorem withMiddlewares_strict (d : SOAPDispatcher) (mws : List Mw) :
    (withMiddlewares d mws).strict_soap_header = d.strict_soap_header := rfl

@[simp] theorem withMiddlewares_middlewares (d : SOAPDispatcher) (mws : List Mw) :
    (withMiddlewares d mws).middlewares = mws := rfl

theorem parse_soap_content_mw (d : SOAPDispatcher) (mws : List Mw) (xml : String) :
    parse_soap_content (withMiddlewares d mws) xml = parse_soap_content d xml := by
  simp [parse_soap_content]

theorem find_handler_mw (d : SOAPDispatcher) (mws : List Mw) (req : SOAPRequest)
    (b : XmlElem) :
    find_handler_for_request (withMiddlewares d mws) req b =
      find_handler_for_request d req b := by
  simp [find_handler_for_request]

theorem parse_header_mw (d : SOAPDispatcher) (mws : List Mw) (handler : Method)
    (sh : Option SoapHeader) :
    parse_header (withMiddlewares d mws) handler sh = parse_header d handler sh := by
  simp [parse_header]

theorem parse_input_mw (d : SOAPDispatcher) (mws : List Mw) (handler : Method)
    (msg : XmlElem) :
    parse_input (withMiddlewares d mws) handler msg = parse_input d handler msg := by
  simp [parse_input]

theorem validateChildren_mw (d : SOAPDispatcher) (mws : List Mw) (cs : List XmlElem) :
    validateChildren (withMiddlewares d mws) cs = validateChildren d cs := by
  induction cs with
  | nil => rfl
  | cons c rest ih => simp [validateChildren, ih]

theorem validate_header_mw (d : SOAPDispatcher) (mws : List Mw) (sh : Option SoapHeader) :
    validate_header (withMiddlewares d mws) sh = validate_header d sh := by
  cases sh with
  | none => rfl
  | some hdr => exact validateChildren_mw d mws hdr.children

theorem validate_body_mw (d : SOAPDispatcher) (mws : List Mw) (b : SoapBody) :
    validate_body (withMiddlewares d mws) b = validate_body d b := by
  simp [validate_body]

theorem validate_input_mw (d : SOAPDispatcher) (mws : List Mw) (env : Envelope) :
    validate_input (withMiddlewares d mws) env = validate_input d env := by
  simp only [validate_input, validate_header_mw, validate_body_mw]

/-- The staged pipeline never looks at the middleware list. -/
theorem routeStages_mw_invariant (d : SOAPDispatcher) (mws : List Mw) (req : SOAPRequest) :
    routeStages (withMiddlewares d mws) req = routeStages d req := by
  simp [routeStages, parse_soap_content_mw, validate_input_mw, find_handler_mw,
    parse_header_mw, parse_input_mw]

theorem finishResponse_mw (d : SOAPDispatcher) (mws : List Mw)
    (pair : RespVal × Option RoutedCtx) :
    finishResponse (withMiddlewares d mws) pair = finishResponse d pair := by
  simp [finishResponse]

/-- A `SOAPError` from the staged pipeline is converted into the explicit
fault response, identically for every middleware list. -/
theorem handle_fault_of_staged_error (d : SOAPDispatcher) (req : SOAPRequest)
    (c m : String) (h : routeStages d req = .error (.soapError c m)) (mws : List Mw) :
    handle_soap_request (withMiddlewares d mws) req = .ok (faultResponse d c m) := by
  simp only [handle_soap_request, routeStages_mw_invariant, h, finishResponse_mw]
  simp only [finishResponse, wrapResponse, SOAPResponse.ofBody, faultResponse]
  rfl

/-- Claim C5: a POST body that is not well-formed XML, and a parsed
envelope with no Body, each make `handle_soap_request` return — without
invoking any middleware (the result is the same for every middleware
list) — a fault response with the client fault code and HTTP status 500;
and the same conversion applies to every `SOAPError` raised during the
parse / validate / route / parse stages. -/
theorem soap_errors_become_client_faults (d : SOAPDispatcher) (req : SOAPRequest) :
    (∀ msg, d.service.version.parsexml req.http_content = .error msg →
      ∀ mws, handle_soap_request (withMiddlewares d mws) req =
        .ok (faultResponse d d.service.version.codeClient msg))
    ∧ (∀ env, d.service.version.parsexml req.http_content = .ok env → env.body = none →
      ∀ mws, handle_soap_request (withMiddlewares d mws) req =
        .ok (faultResponse d d.service.version.codeClient "Missing SOAP body"))
    ∧ (∀ c m, routeStages d req = .error (.soapError c m) →
      ∀ mws, handle_soap_request (withMiddlewares d mws) req =
        .ok (faultResponse d c m)) := by
  refine ⟨?_, ?_, ?_⟩
  · intro msg hmsg mws
    apply handle_fault_of_staged_error
    simp [routeStages, parse_soap_content, hmsg, bind, Except.bind]
  · intro env henv hbody mws
    apply handle_fault_of_staged_error
    simp [routeStages, parse_soap_content, henv, hbody, bind, Except.bind]
  · intro c m h mws
    exact handle_fault_of_staged_error d req c m h mws

theorem soap_errors_become_client_faults_witness :
    handle_soap_request (withMiddlewares dErr []) reqErr =
      .ok (faultResponse dErr "Client" "XMLSyntaxError") :=
  (soap_errors_become_client_faults dErr reqErr).1 "XMLSyntaxError" rfl []

/-- Claim C6: once routing succeeded, an exception raised by the composed
middleware chain — which includes any exception of the terminal handler
function — leaves `handle_soap_request` as that exception; no fault
envelope is built for it. -/
theorem handler_exceptions_propagate (d : SOAPDispatcher) (req : SOAPRequest)
    (ctx : RoutedCtx) (e : PyExn) (h1 : routeStages d req = .ok ctx)
    (h2 : middleware d 0 ctx = .error e) :
    handle_soap_request d req = .error e := by
  simp only [handle_soap_request, h1, h2]

theorem handler_exceptions_propagate_witness :
    handle_soap_request dBoom reqBoom = .error (.other "boom") :=
  handler_exceptions_propagate dBoom reqBoom ctxBoom (.other "boom") rfl rfl

/-- Every successful exit of `finishResponse` carries the protocol content
type. -/
theorem finishResponse_sets_content_type (d : SOAPDispatcher)
    (pair : RespVal × Option RoutedCtx) (r : SOAPResponse)
    (h : finishResponse d pair = .ok r) :
    r.http_headers.lookup "Content-Type" = some d.service.version.CONTENT_TYPE := by
  obtain ⟨rv, ctxq⟩ := pair
  cases hb : (wrapResponse rv).soap_body with
  | err c m =>
      simp only [finishResponse, hb, exceptPure, Except.ok.injEq] at h
      subst h
      exact dictSet_lookup _ _ _
  | obj cls =>
      cases ctxq with
      | none => simp [finishResponse, hb] at h
      | some ctx =>
          cases ho : ctx.method.output with
          | name s =>
              simp only [finishResponse, hb, ho, exceptPure, Except.ok.injEq] at h
              subst h
              exact dictSet_lookup _ _ _
          | typ t => simp [finishResponse, hb, ho, SOAPResponse.contentAttr] at h
  | strVal s0 =>
      cases ctxq with
      | none => simp [finishResponse, hb] at h
      | some ctx =>
          cases ho : ctx.method.output with
          | name s =>
              simp only [finishResponse, hb, ho, exceptPure, Except.ok.injEq] at h
              subst h
              exact dictSet_lookup _ _ _
          | typ t => simp [finishResponse, hb, ho, SOAPResponse.contentAttr] at h

/-- Claim C10: every response that `handle_soap_request` returns — fault
responses and middleware short-circuit responses included — has its
`Content-Type` header equal to the protocol content type, whatever value
that header had before. -/
theorem responses_carry_protocol_content_type (d : SOAPDispatcher) (req : SOAPRequest)
    (r : SOAPResponse) (h : handle_soap_request d req = .ok r) :
    r.http_headers.lookup "Content-Type" = some d.service.version.CONTENT_TYPE := by
  unfold handle_soap_request at h
  cases hs : routeStages d req with
  | error e =>
      rw [hs] at h
      cases e with
      | soapError c m => exact finishResponse_sets_content_type d _ r h
      | keyError => exact Except.noConfusion h
      | typeError m => exact Except.noConfusion h
      | attributeError n => exact Except.noConfusion h
      | other t => exact Except.noConfusion h
  | ok ctx =>
      rw [hs] at h
      replace h : (match middleware d 0 ctx with
          | Except.error e => (Except.error e : Except PyExn SOAPResponse)
          | Except.ok rv => finishResponse d (rv, some ctx)) = Except.ok r := h
      cases hm : middleware d 0 ctx with
      | error e => rw [hm] at h; exact Except.noConfusion h
      | ok rv => rw [hm] at h; exact finishResponse_sets_content_type d _ r h

theorem responses_carry_protocol_content_type_witness :
    respNamed.http_headers.lookup "Content-Type" =
      some dNamed.service.version.CONTENT_TYPE :=
  responses_carry_protocol_content_type dNamed reqTag respNamed rfl

/-- Claim C1 (code bug): when the resolved method's configured output is
not a string, the fallback at soap_dispatch.py line 203 derives the tag
from `response.content`, an attribute the structured response does not
define, so the request fails with an `AttributeError` instead of using the
body object's class name as the claim states; with an explicit string
output the request succeeds and that string is the envelope tag. -/
theorem response_tag_fallback_bug :
    handle_soap_request dTag reqTag = .error (.attributeError "content")
    ∧ handle_soap_request dNamed reqTag =
      .ok ⟨.obj "FlightResponse", none, 200, some "resp(flightResponse)",
        [("Content-Type", "text/xml; charset=utf-8")]⟩ :=
  ⟨rfl, rfl⟩

/-- Claim C9: a request that is not a wsdl GET, not an xsd GET and not a
POST gets the fixed 400 plain-text rejection; and a GET whose query
contains `wsdl` is served by the wsdl handler even when the query also
contains `xsd=`, because the wsdl test comes first. -/
theorem dispatch_rejects_other_requests (d : SOAPDispatcher) (req : SOAPRequest) :
    (¬(pyGetD req.environ "REQUEST_METHOD" "" = "GET"
        ∧ strIn "wsdl" (pyGetD req.environ "QUERY_STRING" "") = true) →
     ¬(pyGetD req.environ "REQUEST_METHOD" "" = "GET"
        ∧ strIn "xsd=" (pyGetD req.environ "QUERY_STRING" "") = true) →
     pyGetD req.environ "REQUEST_METHOD" "" ≠ "POST" →
     dispatch d req = .ok badRequestResponse)
    ∧ (pyGetD req.environ "REQUEST_METHOD" "" = "GET" →
       strIn "wsdl" (pyGetD req.environ "QUERY_STRING" "") = true →
       dispatch d req = .ok (handle_wsdl_request d req))
    ∧ badRequestResponse.http_status_code = 400
    ∧ badRequestResponse.http_headers.lookup "Content-Type" = some "text/plain" := by
  refine ⟨?_, ?_, rfl, rfl⟩
  · intro h1 h2 h3
    simp only [dispatch]
    rw [if_neg h1, if_neg h2, if_neg h3]
    rfl
  · intro hm hq
    simp only [dispatch]
    rw [if_pos ⟨hm, hq⟩]
    rfl

theorem dispatch_rejects_other_requests_witness :
    dispatch dErr reqPut = .ok badRequestResponse
    ∧ dispatch dErr reqBothQ = .ok (handle_wsdl_request dErr reqBothQ) :=
  ⟨(dispatch_rejects_other_requests dErr reqPut).1 (by decide) (by decide) (by decide),
   (dispatch_rejects_other_requests dErr reqBothQ).2.1 (by decide) (by decide)⟩

/-- Claim C8 (code bug): a GET with `xsd=a` in the query, at a dispatcher
whose xsd map has an entry for location `a`, does not produce the 200
response with the sub-schema bytes that the claim describes: `parse_qs`
values are lists, so the subscription `self.xsds[qs.get('xsd')]` uses an
unhashable list key and raises `TypeError`.  In fact `handle_xsd_request`
raises on every input. -/
theorem xsd_request_always_raises :
    dispatch dXsd reqXsd = .error (.typeError "unhashable type: list")
    ∧ ∀ (d : SOAPDispatcher) (req : SOAPRequest),
        ∃ e, handle_xsd_request d req = .error e := by
  constructor
  · rfl
  · intro d req
    cases h : req.environ.lookup "QUERY_STRING" with
    | none =>
        exact ⟨.typeError "expected string or bytes",
          by simp [handle_xsd_request, h, bind, Except.bind]⟩
    | some s =>
        cases hq : (parse_qs s).lookup "xsd" with
        | none =>
            exact ⟨.keyError,
              by simp [handle_xsd_request, h, hq, xsdsSubscript, bind, Except.bind]⟩
        | some l =>
            exact ⟨.typeError "unhashable type: list",
              by simp [handle_xsd_request, h, hq, xsdsSubscript, bind, Except.bind]⟩

/-- Claim C3 (amended): the dispatcher stores no composed handler; instead
the chain is rebuilt by the `middleware` method each time
`handle_soap_request` runs it, at a cost of one partial application per
middleware and per request; functionally, middleware `i` receives as its
`next_call` the composition of middlewares `i+1..n` followed by
`call_method`, and an empty middleware list composes to `call_method`
alone. -/
theorem middleware_rebuilt_per_request (d : SOAPDispatcher) :
    (d.middlewares = [] → middleware d 0 = call_method)
    ∧ (∀ (i : Nat) (mw : Mw), d.middlewares[i]? = some mw →
        ∀ ctx, middleware d i ctx = mw ctx (middleware d (i + 1)))
    ∧ rebuildCostPerRequest d = d.middlewares.length := by
  refine ⟨?_, ?_, ?_⟩
  · intro h
    simp [middleware, h, chainFrom]
  · intro i mw h ctx
    have hlt : i < d.middlewares.length := by
      by_contra hge
      rw [List.getElem?_eq_none (Nat.le_of_not_lt hge)] at h
      exact Option.noConfusion h
    have hget : d.middlewares[i] = mw := by
      have := List.getElem?_eq_getElem hlt
      rw [this] at h
      exact Option.some.inj h
    have hdrop : d.middlewares.drop i = mw :: d.middlewares.drop (i + 1) := by
      rw [List.drop_eq_getElem_cons hlt, hget]
    simp [middleware, hdrop, chainFrom]
  · show rebuildCost d.middlewares = d.middlewares.length
    induction d.middlewares with
    | nil => rfl
    | cons a t ih => simp [rebuildCost, ih, Nat.add_comm]

theorem middleware_rebuilt_per_request_witness :
    middleware dErr 0 = call_method
    ∧ middleware dTwoMw 0 ctxNoop = mwNoop ctxNoop (middleware dTwoMw 1)
    ∧ rebuildCostPerRequest dTwoMw = 2 :=
  ⟨(middleware_rebuilt_per_request dErr).1 rfl,
   (middleware_rebuilt_per_request dTwoMw).2.1 0 mwNoop rfl ctxNoop,
   ((middleware_rebuilt_per_request dTwoMw).2.2).trans rfl⟩

/-- Bool coercion helper for option emptiness. -/
theorem isNone_of_isSome_false {α : Type} (o : Option α) (h : o.isSome = false) :
    o.isNone = true := by
  cases o with
  | none => rfl
  | some v => simp at h

/-- Filtering with a stronger predicate keeps at most as many elements. -/
theorem filterLenLe {α : Type} (p q : α → Bool) (L : List α)
    (h : ∀ a ∈ L, p a = true → q a = true) :
    (L.filter p).length ≤ (L.filter q).length := by
  induction L with
  | nil => simp
  | cons a t ih =>
      have ht : ∀ b ∈ t, p b = true → q b = true :=
        fun b hb => h b (List.mem_cons_of_mem a hb)
      cases hp : p a with
      | false =>
          cases hq : q a with
          | false => simpa [List.filter_cons, hp, hq] using ih ht
          | true =>
              simp only [List.filter_cons, hp, hq, if_true, if_false]
              exact le_trans (ih ht) (by simp)
      | true =>
          have hq : q a = true := h a (List.mem_cons_self a t) hp
          simpa [List.filter_cons, hp, hq] using ih ht

/-- Filtering with a strictly stronger predicate that loses a member keeps
strictly fewer elements. -/
theorem filterLenLt {α : Type} (p q : α → Bool) (L : List α)
    (h : ∀ a ∈ L, p a = true → q a = true) (a0 : α) (ha0 : a0 ∈ L)
    (hp0 : p a0 = false) (hq0 : q a0 = true) :
    (L.filter p).length < (L.filter q).length := by
  induction L with
  | nil => cases ha0
  | cons a t ih =>
      have ht : ∀ b ∈ t, p b = true → q b = true :=
        fun b hb => h b (List.mem_cons_of_mem a hb)
      rcases List.mem_cons.mp ha0 with rfl | hmem
      · simp only [List.filter_cons, hp0, hq0, if_true, if_false]
        simpa using Nat.lt_succ_of_le (filterLenLe p q t ht)
      · cases hp : p a with
        | true =>
            have hq : q a = true := h a (List.mem_cons_self a t) hp
            simpa [List.filter_cons, hp, hq] using ih ht hmem
        | false =>
            cases hq : q a with
            | true =>
                simp only [List.filter_cons, hp, hq, if_true, if_false]
                exact Nat.lt_succ_of_lt (by simpa using ih ht hmem)
            | false => simpa [List.filter_cons, hp, hq] using ih ht hmem

/-- A keyed location belongs to `allLocs`. -/
theorem lookup_mem_allLocs (g : SchemaGraph) (loc : String) (n : SchemaNode)
    (h : g.lookup loc = some n) : loc ∈ allLocs g := by
  induction g with
  | nil => simp [List.lookup] at h
  | cons p rest ih =>
      obtain ⟨k, nd⟩ := p
      show loc ∈ k :: (nodeChildren nd ++ allLocs rest)
      by_cases hk : loc = k
      · subst hk; exact List.mem_cons_self _ _
      · have hr : rest.lookup loc = some n := by
          simpa [List.lookup, beq_eq_false_iff_ne.mpr hk] using h
        exact List.mem_cons_of_mem _ (List.mem_append_right _ (ih hr))

/-- A location outside the graph has no children. -/
theorem childrenAt_nil_of_not_mem (g : SchemaGraph) (loc : String)
    (h : loc ∉ allLocs g) : childrenAt g loc = [] := by
  unfold childrenAt
  cases hl : g.lookup loc with
  | none => rfl
  | some n => exact absurd (lookup_mem_allLocs g loc n hl) h

/-- Inversion for one step of the `_generate_xsds` loop. -/
theorem generate_xsds_cons_inv (g : SchemaGraph) (gen : String → String) (f : Nat)
    (loc : String) (rest : List String) (g0 out : List (String × String))
    (tr : List String)
    (h : generate_xsds g gen (f + 1) (loc :: rest) g0 = some (out, tr)) :
    ((g0.lookup loc).isSome = true
        ∧ generate_xsds g gen f rest g0 = some (out, tr))
    ∨ ((g0.lookup loc).isSome = false
        ∧ ∃ g1 t1 t2,
          generate_xsds g gen f (childrenAt g loc) ((loc, gen loc) :: g0) = some (g1, t1)
          ∧ generate_xsds g gen f rest g1 = some (out, t2)
          ∧ tr = loc :: (t1 ++ t2)) := by
  cases hrec : (g0.lookup loc).isSome with
  | true =>
      left
      refine ⟨rfl, ?_⟩
      simpa [generate_xsds, hrec] using h
  | false =>
      right
      refine ⟨rfl, ?_⟩
      simp only [generate_xsds, hrec, Bool.false_eq_true, if_false] at h
      cases h1 : generate_xsds g gen f (childrenAt g loc) ((loc, gen loc) :: g0) with
      | none => rw [h1] at h; exact Option.noConfusion h
      | some pr1 =>
          obtain ⟨g1, t1⟩ := pr1
          rw [h1] at h
          replace h : (match generate_xsds g gen f rest g1 with
              | none => none
              | some (g2, t2) => some (g2, loc :: (t1 ++ t2))) = some (out, tr) := h
          cases h2 : generate_xsds g gen f rest g1 with
          | none => rw [h2] at h; exact Option.noConfusion h
          | some pr2 =>
              obtain ⟨g2, t2⟩ := pr2
              rw [h2] at h
              obtain ⟨he1, he2⟩ : g2 = out ∧ loc :: (t1 ++ t2) = tr := by
                simpa using h
              exact ⟨g1, t1, t2, rfl, by rw [← he1]; exact h2, he2.symm⟩

/-- More fuel preserves a successful run and its result. -/
theorem generate_xsds_fuel_mono (g : SchemaGraph) (gen : String → String) :
    ∀ f f', f ≤ f' → ∀ wl g0 r,
      generate_xsds g gen f wl g0 = some r → generate_xsds g gen f' wl g0 = some r := by
  intro f
  induction f with
  | zero =>
      intro f' _ wl g0 r h
      exact absurd h (by simp [generate_xsds])
  | succ fp ih =>
      intro f' hle wl g0 r h
      obtain ⟨fq, rfl⟩ : ∃ fq, f' = fq + 1 := ⟨f' - 1, by omega⟩
      have hfq : fp ≤ fq := by omega
      cases wl with
      | nil => simpa [generate_xsds] using h
      | cons loc rest =>
          obtain ⟨r1, r2⟩ := r
          rcases generate_xsds_cons_inv g gen fp loc rest g0 r1 r2 h with
            ⟨hrec, hrest⟩ | ⟨hrec, g1, t1, t2, h1, h2, htr⟩
          · simpa [generate_xsds, hrec] using ih fq hfq rest g0 (r1, r2) hrest
          · have h1m := ih fq hfq _ _ _ h1
            have h2m := ih fq hfq _ _ _ h2
            simp [generate_xsds, hrec, h1m, h2m, htr]

/-- The keys of the resulting dict are the initial keys plus the trace. -/
theorem generate_xsds_keys (g : SchemaGraph) (gen : String → String) :
    ∀ f wl g0 out tr, generate_xsds g gen f wl g0 = some (out, tr) →
      ∀ k, (out.lookup k).isSome = true ↔ ((g0.lookup k).isSome = true ∨ k ∈ tr) := by
  intro f
  induction f with
  | zero =>
      intro wl g0 out tr h
      exact absurd h (by simp [generate_xsds])
  | succ fp ih =>
      intro wl g0 out tr h k
      cases wl with
      | nil =>
          obtain ⟨he1, he2⟩ : g0 = out ∧ ([] : List String) = tr := by
            simpa [generate_xsds] using h
          subst he1; subst he2
          simp
      | cons loc rest =>
          rcases generate_xsds_cons_inv g gen fp loc rest g0 out tr h with
            ⟨hrec, hrest⟩ | ⟨hrec, g1, t1, t2, h1, h2, htr⟩
          · exact ih rest g0 out tr hrest k
          · subst htr
            have k1 := ih _ _ _ _ h1 k
            have k2 := ih _ _ _ _ h2 k
            have hcons : ((((loc, gen loc) :: g0).lookup k).isSome = true)
                ↔ (k = loc ∨ (g0.lookup k).isSome = true) := by
              by_cases hk : k = loc
              · subst hk; simp [List.lookup]
              · simp [List.lookup, beq_eq_false_iff_ne.mpr hk, hk]
            rw [k2, k1, hcons]
            simp only [List.mem_cons, List.mem_append]
            tauto

/-- Every worklist entry ends up recorded. -/
theorem generate_xsds_covers_worklist (g : SchemaGraph) (gen : String → String) :
    ∀ f wl g0 out tr, generate_xsds g gen f wl g0 = some (out, tr) →
      ∀ w ∈ wl, (out.lookup w).isSome = true := by
  intro f
  induction f with
  | zero =>
      intro wl g0 out tr h
      exact absurd h (by simp [generate_xsds])
  | succ fp ih =>
      intro wl g0 out tr h w hw
      cases wl with
      | nil => cases hw
      | cons loc rest =>
          rcases generate_xsds_cons_inv g gen fp loc rest g0 out tr h with
            ⟨hrec, hrest⟩ | ⟨hrec, g1, t1, t2, h1, h2, htr⟩
          · rcases List.mem_cons.mp hw with rfl | hmem
            · exact (generate_xsds_keys g gen fp rest g0 out tr hrest w).mpr (Or.inl hrec)
            · exact ih rest g0 out tr hrest w hmem
          · rcases List.mem_cons.mp hw with rfl | hmem
            · have hgenp : ((((w, gen w) :: g0).lookup w).isSome) = true := by
                simp [List.lookup]
              have hg1 : (g1.lookup w).isSome = true :=
                (generate_xsds_keys g gen fp _ _ _ _ h1 w).mpr (Or.inl hgenp)
              exact (generate_xsds_keys g gen fp _ _ _ _ h2 w).mpr (Or.inl hg1)
            · exact ih rest g1 out t2 h2 w hmem

/-- Every traced location has all of its children recorded in the result. -/
theorem generate_xsds_covers_children (g : SchemaGraph) (gen : String → String) :
    ∀ f wl g0 out tr, generate_xsds g gen f wl g0 = some (out, tr) →
      ∀ l ∈ tr, ∀ c ∈ childrenAt g l, (out.lookup c).isSome = true := by
  intro f
  induction f with
  | zero =>
      intro wl g0 out tr h
      exact absurd h (by simp [generate_xsds])
  | succ fp ih =>
      intro wl g0 out tr h l hl c hc
      cases wl with
      | nil =>
          obtain ⟨he1, he2⟩ : g0 = out ∧ ([] : List String) = tr := by
            simpa [generate_xsds] using h
          subst he2; cases hl
      | cons loc rest =>
          rcases generate_xsds_cons_inv g gen fp loc rest g0 out tr h with
            ⟨hrec, hrest⟩ | ⟨hrec, g1, t1, t2, h1, h2, htr⟩
          · exact ih rest g0 out tr hrest l hl c hc
          · subst htr
            rcases List.mem_cons.mp hl with rfl | hl2
            · have hg1 : (g1.lookup c).isSome = true :=
                generate_xsds_covers_worklist g gen fp _ _ _ _ h1 c hc
              exact (generate_xsds_keys g gen fp _ _ _ _ h2 c).mpr (Or.inl hg1)
            · rcases List.mem_append.mp hl2 with hm1 | hm2
              · have hg1 : (g1.lookup c).isSome = true := ih _ _ _ _ h1 l hm1 c hc
                exact (generate_xsds_keys g gen fp _ _ _ _ h2 c).mpr (Or.inl hg1)
              · exact ih rest g1 out t2 h2 l hm2 c hc

/-- The trace never repeats a location and only lists locations that were
not recorded at entry. -/
theorem generate_xsds_trace_nodup (g : SchemaGraph) (gen : String → String) :
    ∀ f wl g0 out tr, generate_xsds g gen f wl g0 = some (out, tr) →
      tr.Nodup ∧ ∀ l ∈ tr, (g0.lookup l).isSome = false := by
  intro f
  induction f with
  | zero =>
      intro wl g0 out tr h
      exact absurd h (by simp [generate_xsds])
  | succ fp ih =>
      intro wl g0 out tr h
      cases wl with
      | nil =>
          obtain ⟨he1, he2⟩ : g0 = out ∧ ([] : List String) = tr := by
            simpa [generate_xsds] using h
          subst he2
          exact ⟨List.nodup_nil, by simp⟩
      | cons loc rest =>
          rcases generate_xsds_cons_inv g gen fp loc rest g0 out tr h with
            ⟨hrec, hrest⟩ | ⟨hrec, g1, t1, t2, h1, h2, htr⟩
          · exact ih rest g0 out tr hrest
          · subst htr
            obtain ⟨hn1, hf1⟩ := ih _ _ _ _ h1
            obtain ⟨hn2, hf2⟩ := ih _ _ _ _ h2
            have hfr1 : ∀ l ∈ t1, l ≠ loc ∧ (g0.lookup l).isSome = false := by
              intro l hl
              have hx := hf1 l hl
              by_cases he : l = loc
              · subst he; simp [List.lookup] at hx
              · refine ⟨he, ?_⟩
                simpa [List.lookup, beq_eq_false_iff_ne.mpr he] using hx
            have hfr2 : ∀ l ∈ t2, l ≠ loc ∧ (g0.lookup l).isSome = false ∧ l ∉ t1 := by
              intro l hl
              have hx := hf2 l hl
              have hng1 : ¬((((loc, gen loc) :: g0).lookup l).isSome = true ∨ l ∈ t1) := by
                intro hor
                have := (generate_xsds_keys g gen fp _ _ _ _ h1 l).mpr hor
                rw [this] at hx
                exact Bool.noConfusion hx
              push_neg at hng1
              obtain ⟨hnp, hnt1⟩ := hng1
              by_cases he : l = loc
              · subst he; simp [List.lookup] at hnp
              · refine ⟨he, ?_, hnt1⟩
                have hne : (g0.lookup l).isSome ≠ true := by
                  intro hs
                  apply hnp
                  simpa [List.lookup, beq_eq_false_iff_ne.mpr he] using hs
                exact Bool.eq_false_iff.mpr hne
            constructor
            · rw [List.nodup_cons]
              constructor
              · rw [List.mem_append]
                rintro (hl | hl)
                · exact (hfr1 loc hl).1 rfl
                · exact (hfr2 loc hl).1 rfl
              · rw [List.nodup_append]
                refine ⟨hn1, hn2, ?_⟩
                intro x hx1 hx2
                exact (hfr2 x hx2).2.2 hx1
            · intro l hl
              rcases List.mem_cons.mp hl with rfl | hl2
              · exact hrec
              · rcases List.mem_append.mp hl2 with hm1 | hm2
                · exact (hfr1 l hm1).2
                · exact (hfr2 l hm2).2.1

/-- Weakening the root list of reachability. -/
theorem reachFrom_mono (g : SchemaGraph) {wl wl' : List String}
    (hsub : ∀ x ∈ wl, x ∈ wl') {l : String} (h : ReachFrom g wl l) :
    ReachFrom g wl' l := by
  induction h with
  | root hl => exact .root (hsub _ hl)
  | step _ hc ih => exact .step ih hc

/-- Anything reachable from the children of a worklist element is reachable
from the worklist. -/
theorem reachFrom_through (g : SchemaGraph) {wl : List String} {loc : String}
    (hloc : loc ∈ wl) {l : String} (h : ReachFrom g (childrenAt g loc) l) :
    ReachFrom g wl l := by
  induction h with
  | root hl => exact .step (.root hloc) hl
  | step _ hc ih => exact .step ih hc

/-- Every traced location is reachable from the worklist. -/
theorem generate_xsds_sound (g : SchemaGraph) (gen : String → String) :
    ∀ f wl g0 out tr, generate_xsds g gen f wl g0 = some (out, tr) →
      ∀ l ∈ tr, ReachFrom g wl l := by
  intro f
  induction f with
  | zero =>
      intro wl g0 out tr h
      exact absurd h (by simp [generate_xsds])
  | succ fp ih =>
      intro wl g0 out tr h l hl
      cases wl with
      | nil =>
          obtain ⟨he1, he2⟩ : g0 = out ∧ ([] : List String) = tr := by
            simpa [generate_xsds] using h
          subst he2; cases hl
      | cons loc rest =>
          rcases generate_xsds_cons_inv g gen fp loc rest g0 out tr h with
            ⟨hrec, hrest⟩ | ⟨hrec, g1, t1, t2, h1, h2, htr⟩
          · exact reachFrom_mono g (fun x hx => List.mem_cons_of_mem loc hx)
              (ih rest g0 out tr hrest l hl)
          · subst htr
            rcases List.mem_cons.mp hl with rfl | hl2
            · exact .root (List.mem_cons_self _ _)
            · rcases List.mem_append.mp hl2 with hm1 | hm2
              · exact reachFrom_through g (List.mem_cons_self _ _)
                  (ih _ _ _ _ h1 l hm1)
              · exact reachFrom_mono g (fun x hx => List.mem_cons_of_mem loc hx)
                  (ih rest g1 out t2 h2 l hm2)

/-- Starting from an empty dict, every reachable location is traced. -/
theorem generate_xsds_complete (g : SchemaGraph) (gen : String → String) (f : Nat)
    (wl : List String) (out : List (String × String)) (tr : List String)
    (h : generate_xsds g gen f wl [] = some (out, tr)) :
    ∀ l, ReachFrom g wl l → l ∈ tr := by
  intro l hr
  induction hr with
  | root hl =>
      have hs := generate_xsds_covers_worklist g gen f wl [] out tr h _ hl
      rcases (generate_xsds_keys g gen f wl [] out tr h _).mp hs with hg | htr
      · simp [List.lookup] at hg
      · exact htr
  | step hreach hc ih =>
      have hs := generate_xsds_covers_children g gen f wl [] out tr h _ ih _ hc
      rcases (generate_xsds_keys g gen f wl [] out tr h _).mp hs with hg | htr
      · simp [List.lookup] at hg
      · exact htr

/-- Recording a graph location strictly shrinks the pending set. -/
theorem pendingCount_lt_insert (g : SchemaGraph) (g0 : List (String × String))
    (loc v : String) (hmem : loc ∈ allLocs g)
    (hnone : (g0.lookup loc).isSome = false) :
    pendingCount g ((loc, v) :: g0) < pendingCount g g0 := by
  unfold pendingCount
  refine filterLenLt _ _ _ ?_ loc (List.mem_dedup.mpr hmem) ?_ ?_
  · intro a _ hp
    by_cases ha : a = loc
    · subst ha; simp [List.lookup] at hp
    · simpa [List.lookup, beq_eq_false_iff_ne.mpr ha] using hp
  · simp [List.lookup]
  · exact isNone_of_isSome_false _ hnone

/-- Recording a location outside the graph leaves the pending set alone. -/
theorem pendingCount_eq_insert_not_mem (g : SchemaGraph) (g0 : List (String × String))
    (loc v : String) (hmem : loc ∉ allLocs g) :
    pendingCount g ((loc, v) :: g0) = pendingCount g g0 := by
  unfold pendingCount
  congr 1
  apply List.filter_congr
  intro a ha
  have hne : a ≠ loc := fun he => hmem (he ▸ List.mem_dedup.mp ha)
  simp [List.lookup, beq_eq_false_iff_ne.mpr hne]

/-- A dict with more keys has at most as many pending locations. -/
theorem pendingCount_mono (g : SchemaGraph) (ga gb : List (String × String))
    (h : ∀ k, (ga.lookup k).isSome = true → (gb.lookup k).isSome = true) :
    pendingCount g gb ≤ pendingCount g ga := by
  unfold pendingCount
  apply filterLenLe
  intro a _ hb
  cases hga : ga.lookup a with
  | none => simp [hga]
  | some x =>
      have hgb := h a (by simp [hga])
      cases hx : gb.lookup a with
      | none => rw [hx] at hgb; simp at hgb
      | some y => rw [hx] at hb; simp [Option.isNone] at hb

/-- On an empty worklist one unit of fuel suffices. -/
theorem generate_xsds_nil (g : SchemaGraph) (gen : String → String) (f : Nat)
    (g0 : List (String × String)) :
    generate_xsds g gen (f + 1) [] g0 = some (g0, []) := rfl

/-- Termination of `_generate_xsds`: whatever the worklist and the dict,
some fuel makes the run complete. -/
theorem generate_xsds_ex_fuel (g : SchemaGraph) (gen : String → String) :
    ∀ n wl g0, pendingCount g g0 ≤ n →
      ∃ f out tr, generate_xsds g gen f wl g0 = some (out, tr) := by
  intro n
  induction n with
  | zero =>
      intro wl
      induction wl with
      | nil => exact fun g0 _ => ⟨1, g0, [], rfl⟩
      | cons loc rest ihw =>
          intro g0 hp
          by_cases hrec : (g0.lookup loc).isSome = true
          · obtain ⟨f, out, tr, hf⟩ := ihw g0 hp
            exact ⟨f + 1, out, tr, by simpa [generate_xsds, hrec] using hf⟩
          · have hrec' : (g0.lookup loc).isSome = false := Bool.eq_false_iff.mpr hrec
            have hout : loc ∉ allLocs g := by
              intro hmem
              have := pendingCount_lt_insert g g0 loc (gen loc) hmem hrec'
              omega
            have hch : childrenAt g loc = [] := childrenAt_nil_of_not_mem g loc hout
            have hpend : pendingCount g ((loc, gen loc) :: g0) ≤ 0 := by
              rw [pendingCount_eq_insert_not_mem g g0 loc (gen loc) hout]
              exact hp
            obtain ⟨f2, out2, tr2, hf2⟩ := ihw ((loc, gen loc) :: g0) hpend
            refine ⟨max 1 f2 + 1, out2, loc :: ([] ++ tr2), ?_⟩
            obtain ⟨fk, hfk⟩ : ∃ fk, max 1 f2 = fk + 1 :=
              ⟨max 1 f2 - 1, by omega⟩
            have h1 : generate_xsds g gen (max 1 f2) (childrenAt g loc)
                ((loc, gen loc) :: g0) = some ((loc, gen loc) :: g0, []) := by
              rw [hch, hfk]; rfl
            have h2 : generate_xsds g gen (max 1 f2) rest ((loc, gen loc) :: g0) =
                some (out2, tr2) :=
              generate_xsds_fuel_mono g gen f2 (max 1 f2) (Nat.le_max_right 1 f2)
                rest _ _ hf2
            simp [generate_xsds, hrec', h1, h2]
  | succ m ihn =>
      intro wl
      induction wl with
      | nil => exact fun g0 _ => ⟨1, g0, [], rfl⟩
      | cons loc rest ihw =>
          intro g0 hp
          by_cases hrec : (g0.lookup loc).isSome = true
          · obtain ⟨f, out, tr, hf⟩ := ihw g0 hp
            exact ⟨f + 1, out, tr, by simpa [generate_xsds, hrec] using hf⟩
          · have hrec' : (g0.lookup loc).isSome = false := Bool.eq_false_iff.mpr hrec
            by_cases hmem : loc ∈ allLocs g
            · have hp1 : pendingCount g ((loc, gen loc) :: g0) ≤ m := by
                have := pendingCount_lt_insert g g0 loc (gen loc) hmem hrec'
                omega
              obtain ⟨f1, out1, tr1, hf1⟩ := ihn (childrenAt g loc) ((loc, gen loc) :: g0) hp1
              have hp2 : pendingCount g out1 ≤ m := by
                refine le_trans (pendingCount_mono g ((loc, gen loc) :: g0) out1 ?_) hp1
                intro k hk
                exact (generate_xsds_keys g gen f1 _ _ _ _ hf1 k).mpr (Or.inl hk)
              obtain ⟨f2, out2, tr2, hf2⟩ := ihn rest out1 hp2
              refine ⟨max f1 f2 + 1, out2, loc :: (tr1 ++ tr2), ?_⟩
              have h1 := generate_xsds_fuel_mono g gen f1 (max f1 f2)
                (Nat.le_max_left f1 f2) _ _ _ hf1
              have h2 := generate_xsds_fuel_mono g gen f2 (max f1 f2)
                (Nat.le_max_right f1 f2) _ _ _ hf2
              simp [generate_xsds, hrec', h1, h2]
            · have hch : childrenAt g loc = [] := childrenAt_nil_of_not_mem g loc hmem
              have hpend : pendingCount g ((loc, gen loc) :: g0) ≤ m + 1 := by
                rw [pendingCount_eq_insert_not_mem g g0 loc (gen loc) hmem]
                exact hp
              obtain ⟨f2, out2, tr2, hf2⟩ := ihw ((loc, gen loc) :: g0) hpend
              refine ⟨max 1 f2 + 1, out2, loc :: ([] ++ tr2), ?_⟩
              obtain ⟨fk, hfk⟩ : ∃ fk, max 1 f2 = fk + 1 :=
                ⟨max 1 f2 - 1, by omega⟩
              have h1 : generate_xsds g gen (max 1 f2) (childrenAt g loc)
                  ((loc, gen loc) :: g0) = some ((loc, gen loc) :: g0, []) := by
                rw [hch, hfk]; rfl
              have h2 : generate_xsds g gen (max 1 f2) rest ((loc, gen loc) :: g0) =
                  some (out2, tr2) :=
                generate_xsds_fuel_mono g gen f2 (max 1 f2) (Nat.le_max_right 1 f2)
                  rest _ _ hf2
              simp [generate_xsds, hrec', h1, h2]

/-- Claim C7: for every finite import/include schema graph — cyclic and
diamond-shaped graphs included — `_generate_xsds` terminates (some fuel
completes the run, and the result is then stable), its trace of
`generate_xsd` invocations never repeats a location, a location is
generated exactly when it is reachable from the root references, and the
resulting dict holds exactly the generated locations. -/
theorem generate_xsds_terminates_once_per_location (g : SchemaGraph)
    (gen : String → String) (roots : List String) :
    ∃ fuel out trace,
      generate_xsds g gen fuel roots [] = some (out, trace)
      ∧ trace.Nodup
      ∧ (∀ l, l ∈ trace ↔ ReachFrom g roots l)
      ∧ (∀ l, (out.lookup l).isSome = true ↔ l ∈ trace) := by
  obtain ⟨f, out, tr, hf⟩ :=
    generate_xsds_ex_fuel g gen (pendingCount g []) roots [] le_rfl
  refine ⟨f, out, tr, hf, (generate_xsds_trace_nodup g gen f roots [] out tr hf).1,
    ?_, ?_⟩
  · intro l
    constructor
    · exact fun hl => generate_xsds_sound g gen f roots [] out tr hf l hl
    · exact fun hr => generate_xsds_complete g gen f roots out tr hf l hr
  · intro l
    have hk := generate_xsds_keys g gen f roots [] out tr hf l
    rw [hk]
    simp [List.lookup]

/-- Claim C3 counterexample: the claim says the ordered middleware list is
composed exactly once, at construction, into a stored handler and is not
re-composed on each request — under that reading the per-request
composition cost is zero.  In the code `handle_soap_request` evaluates
`self.middleware()` anew for every request that passes routing,
constructing one partial application per middleware: for a dispatcher with
two middlewares the per-request cost is 2, in particular positive. -/
theorem middleware_composed_per_request_counterexample :
    rebuildCostPerRequest dTwoMw = 2 ∧ 0 < rebuildCostPerRequest dTwoMw :=
  ⟨rfl, by decide⟩

end Soapfish
